import Mathlib

/-!
Verification development for the ElmorLabs KTH USB-serial interface script
(`main.py`): a shallow embedding of its register table, byte decoding,
serial handshake, collection cycle, in-memory buffer with FIFO eviction,
and CSV persistence, together with theorems about the embedded program.

Serial transports are modelled as functions from a command byte to the
response bytes the device would make available; `ser.read(n)` returns at
most `n` of them, modelled by `List.take n`.
-/

namespace KTH

/-- Setting `max_length = 500` from `main.py`. -/
def max_length : Nat := 500

/-- One entry of the `communication_specs` table of `get_new_sensor_values`:
name, command byte, number of response bytes read, scaling multiplier,
unit label, signedness of the decode. -/
structure SensorSpec where
  name : String
  command : Nat
  width : Nat
  scale : ℚ
  unit : String
  signed : Bool
deriving Repr, DecidableEq

/-- The five-entry `communication_specs` table from `get_new_sensor_values`,
in the declaration order of the Python dict (Python dicts preserve
insertion order). -/
def communication_specs : List SensorSpec :=
  [ ⟨"TC1", 0x10, 2, 1/10, "T", true⟩,
    ⟨"TC2", 0x11, 2, 1/10, "T", true⟩,
    ⟨"VDD", 0x12, 4, 1, "uV", true⟩,
    ⟨"TH1", 0x14, 2, 1, "ADC value", false⟩,
    ⟨"TH2", 0x15, 2, 1, "ADC value", false⟩ ]

/-- Little-endian unsigned interpretation of a byte list, the unsigned core
of Python's `int.from_bytes(bs, byteorder='little')`. -/
def fromBytesLE : List Nat → Nat
  | [] => 0
  | b :: rest => b + 256 * fromBytesLE rest

/-- Python's `int.from_bytes(bs, byteorder='little', signed=signed)`:
unsigned little-endian value, shifted down by `2^(8*len)` when `signed`
is set and the top bit of the last byte is one.  On the empty byte string
it returns `0`, as in Python. -/
def int_from_bytes (bs : List Nat) (signed : Bool) : Int :=
  let u := fromBytesLE bs
  if signed = true ∧ 2 ^ (8 * bs.length - 1) ≤ u then
    (u : Int) - 2 ^ (8 * bs.length)
  else
    (u : Int)

/-- A row of the dataframe built by `get_new_sensor_values`:
`[timestamp, id, unit, value]`.  Timestamps are abstract ticks; values are
exact rationals (the Python floats of the script are abstracted to exact
arithmetic). -/
structure Reading where
  timestamp : Nat
  id : String
  unit : String
  value : ℚ
deriving Repr, DecidableEq

/-- The body of the per-spec loop of `get_new_sensor_values`: write the
command byte, read `width` bytes (the transport may deliver fewer), slice
`read_bytes[0:nr_of_bytes]`, decode little-endian with the spec's
signedness, multiply by the spec's scale, and record timestamp, name and
unit.  `respond c` is the full response the device makes available to
command `c`; `ser.read(n)` takes at most `n` of those bytes. -/
def read_sensor (respond : Nat → List Nat) (t : Nat) (spec : SensorSpec) :
    Reading :=
  let read_bytes := (respond spec.command).take spec.width
  let result :=
    (int_from_bytes (read_bytes.take spec.width) spec.signed : ℚ) * spec.scale
  ⟨t, spec.name, spec.unit, result⟩

/-- The `for name, value in communication_specs.items():` loop of
`get_new_sensor_values`, one `Reading` per remaining spec; `i` counts the
iterations already done, so `ts i` is the wall clock at the current
iteration. -/
def collect_loop (respond : Nat → List Nat) (ts : Nat → Nat) :
    Nat → List SensorSpec → List Reading
  | _, [] => []
  | i, spec :: rest =>
      read_sensor respond (ts i) spec :: collect_loop respond ts (i + 1) rest

/-- `get_new_sensor_values` as a pure batch producer: one `Reading` per
table entry, in table order, each with its own timestamp (`ts i` is the
wall clock at loop iteration `i`).  The CSV side effect is modelled
separately by `to_csv_append`. -/
def get_new_sensor_values (respond : Nat → List Nat) (ts : Nat → Nat) :
    List Reading :=
  collect_loop respond ts 0 communication_specs

/-- Events observable on the serial transport: opening the port (entering
the `with serial.Serial(...)` block), writing one command byte, reading a
response, and closing the port. -/
inductive Event where
  | openConn : Event
  | write : Nat → Event
  | readEv : List Nat → Event
  | closeConn : Event
deriving Repr, DecidableEq

/-- `check_connection` from `main.py`: one `with serial.Serial(...)` block
in which the four probes `0x00`–`0x03` are written in sequence, each read
with `ser.read(100)`; the single live assertion is that the device-ID
response equals `b'\x0d\xee'`.  Returns whether the assertion passed,
together with the transport event trace; on assertion failure the trace
stops at the failing probe (the context manager still closes the port). -/
def check_connection (respond : Nat → List Nat) : Bool × List Event :=
  let r0 := (respond 0x00).take 100
  let r1 := (respond 0x01).take 100
  if r1 = [0x0d, 0xee] then
    let r2 := (respond 0x02).take 100
    let r3 := (respond 0x03).take 100
    (true,
      [Event.openConn, Event.write 0x00, Event.readEv r0,
       Event.write 0x01, Event.readEv r1,
       Event.write 0x02, Event.readEv r2,
       Event.write 0x03, Event.readEv r3, Event.closeConn])
  else
    (false,
      [Event.openConn, Event.write 0x00, Event.readEv r0,
       Event.write 0x01, Event.readEv r1, Event.closeConn])

/-- The transport event trace of one `get_new_sensor_values` call: a single
`with serial.Serial(...)` block containing one write/read pair per table
entry. -/
def get_new_sensor_values_trace (respond : Nat → List Nat) : List Event :=
  Event.openConn ::
    (communication_specs.flatMap (fun spec =>
      [Event.write spec.command,
       Event.readEv ((respond spec.command).take spec.width)])
      ++ [Event.closeConn])

/-- The transport events of program startup: `check_connection` runs first,
and the initial `get_new_sensor_values` call happens only if its assertion
passed (an assertion failure terminates the process). -/
def startup_events (respond : Nat → List Nat) : List Event :=
  (check_connection respond).2 ++
    (if (check_connection respond).1 then get_new_sensor_values_trace respond
     else [])

/-- The sensor command bytes, read off the table. -/
def sensor_commands : List Nat :=
  communication_specs.map (fun s => s.command)

/-- Number of port openings in a trace. -/
def count_opens (evs : List Event) : Nat :=
  evs.countP (fun e => decide (e = Event.openConn))

/-- The command bytes written in a trace, in order. -/
def writes_of (evs : List Event) : List Nat :=
  evs.filterMap (fun e =>
    match e with
    | Event.write c => some c
    | _ => none)

/-- Does every write in the trace happen on a connection opened since the
previous write?  This is the discipline the spec describes ("each over a
freshly opened connection").  The fold state is (all writes so far were
fresh, an open has happened since the last write). -/
def fresh_per_write (evs : List Event) : Bool :=
  (evs.foldl
    (fun st e =>
      match e with
      | Event.openConn => (st.1, true)
      | Event.write _ => (st.1 && st.2, false)
      | _ => st)
    (true, false)).1

/-- The buffer-maintenance part of `animation_update`: append the new rows
one past the end (`df.loc[df.index.max()+1] = row` in insertion order),
then, if the dataframe now has more than `max_length` rows, drop the row
at `df.index.min()` once per new row — i.e. drop the `len(batch)` oldest
rows. -/
def ingest (buf batch : List Reading) : List Reading :=
  let df := buf ++ batch
  if max_length < df.length then df.drop batch.length else df

/-- A line of `temperature_measurements.csv`: the header
`timestamp,id,unit,value` or one record row. -/
inductive CsvLine where
  | header : CsvLine
  | record : Reading → CsvLine
deriving Repr, DecidableEq

/-- The `df.to_csv(file, index=False)` call of `__main__`: pandas' default
mode `'w'` replaces the file's previous contents with a header line
followed by the rows of `df`. -/
def to_csv_write (_file : List CsvLine) (df : List Reading) : List CsvLine :=
  CsvLine.header :: df.map CsvLine.record

/-- The `df.to_csv(file, mode='a', header=False, index=False)` call of
`get_new_sensor_values`: append the rows of `df` to the file, no header. -/
def to_csv_append (file : List CsvLine) (df : List Reading) : List CsvLine :=
  file ++ df.map CsvLine.record

/-- The in-memory dataframe together with the CSV file, the state the
animation loop mutates. -/
structure RunState where
  buffer : List Reading
  file : List CsvLine
deriving Repr, DecidableEq

/-- Startup with `save_to_csv = True`: `__main__` collects one initial
batch (with `save_to_csv=False`, so the collector itself does not append)
and then writes it to the CSV file in mode `'w'`. -/
def init_run (file0 : List CsvLine) (respond : Nat → List Nat)
    (ts : Nat → Nat) : RunState :=
  let df := get_new_sensor_values respond ts
  ⟨df, to_csv_write file0 df⟩

/-- One `animation_update` tick with `save_to_csv = True`: collect a new
batch (`get_new_sensor_values` appends it to the CSV before returning),
then ingest it into the in-memory dataframe. -/
def animation_update (respond : Nat → List Nat) (ts : Nat → Nat)
    (s : RunState) : RunState :=
  let df_new_data := get_new_sensor_values respond ts
  ⟨ingest s.buffer df_new_data, to_csv_append s.file df_new_data⟩

/-- The state after startup and `n` animation ticks; `responds i` and
`tss i` are the transport and clock at tick `i` (tick `0` is startup). -/
def run_state (file0 : List CsvLine) (responds : Nat → Nat → List Nat)
    (tss : Nat → Nat → Nat) : Nat → RunState
  | 0 => init_run file0 (responds 0) (tss 0)
  | n + 1 =>
      animation_update (responds (n + 1)) (tss (n + 1))
        (run_state file0 responds tss n)

/-- One whole run of the program at the level of the CSV file alone, with
`save_to_csv = True`: the startup write in mode `'w'`, then one append per
tick.  `batch0` is the startup batch and `batches` the per-tick batches. -/
def run_csv (file0 : List CsvLine) (batch0 : List Reading)
    (batches : List (List Reading)) : List CsvLine :=
  batches.foldl to_csv_append (to_csv_write file0 batch0)

/-- Little-endian byte encoding of a natural number in `w` bytes. -/
def natToBytesLE : Nat → Nat → List Nat
  | 0, _ => []
  | w + 1, v => v % 256 :: natToBytesLE w (v / 256)

/-- Little-endian encoding of an integer in `w` bytes, two's complement
for negative values. -/
def int_to_bytes_le (w : Nat) (v : Int) : List Nat :=
  natToBytesLE w (v % (2 ^ (8 * w) : Int)).toNat

/-! Auxiliary lemmas about the byte codec. -/

lemma natToBytesLE_length (w n : Nat) : (natToBytesLE w n).length = w := by
  induction w generalizing n with
  | zero => simp [natToBytesLE]
  | succ k ih => simp [natToBytesLE, ih]

lemma fromBytesLE_natToBytesLE (w n : Nat) :
    fromBytesLE (natToBytesLE w n) = n % 2 ^ (8 * w) := by
  induction w generalizing n with
  | zero => simp [natToBytesLE, fromBytesLE, Nat.mod_one]
  | succ k ih =>
    have h : (2:Nat) ^ (8 * (k + 1)) = 256 * 2 ^ (8 * k) := by ring
    rw [natToBytesLE, fromBytesLE, ih, h, Nat.mod_mul]

lemma int_to_bytes_le_length (w : Nat) (v : Int) :
    (int_to_bytes_le w v).length = w := by
  simp [int_to_bytes_le, natToBytesLE_length]

lemma fromBytesLE_int_to_bytes_le (w : Nat) (v : Int) :
    (fromBytesLE (int_to_bytes_le w v) : Int) = v % ((2 ^ (8 * w) : Nat) : Int) := by
  have hpos : (0:Int) < ((2 ^ (8 * w) : Nat) : Int) := by positivity
  have h1 : fromBytesLE (int_to_bytes_le w v)
      = (v % ((2 ^ (8 * w) : Nat) : Int)).toNat % 2 ^ (8 * w) := by
    rw [int_to_bytes_le, fromBytesLE_natToBytesLE]
    norm_cast
  have h2 : 0 ≤ v % ((2 ^ (8 * w) : Nat) : Int) :=
    Int.emod_nonneg v (by positivity)
  have h3 : v % ((2 ^ (8 * w) : Nat) : Int) < ((2 ^ (8 * w) : Nat) : Int) :=
    Int.emod_lt_of_pos v hpos
  have h4 : (v % ((2 ^ (8 * w) : Nat) : Int)).toNat < 2 ^ (8 * w) := by
    omega
  rw [h1, Nat.mod_eq_of_lt h4]
  omega

lemma int_from_bytes_int_to_bytes_le_signed2 (v : Int)
    (h1 : -32768 ≤ v) (h2 : v < 32768) :
    int_from_bytes (int_to_bytes_le 2 v) true = v := by
  have hu := fromBytesLE_int_to_bytes_le 2 v
  simp only [show (8 * 2 : Nat) = 16 from rfl,
    show ((2 ^ 16 : Nat) : Int) = 65536 from by norm_num] at hu
  simp only [int_from_bytes, int_to_bytes_le_length,
    show (8 * 2 - 1 : Nat) = 15 from rfl, show (8 * 2 : Nat) = 16 from rfl,
    eq_self_iff_true, true_and]
  split <;> omega

lemma int_from_bytes_int_to_bytes_le_signed4 (v : Int)
    (h1 : -2147483648 ≤ v) (h2 : v < 2147483648) :
    int_from_bytes (int_to_bytes_le 4 v) true = v := by
  have hu := fromBytesLE_int_to_bytes_le 4 v
  simp only [show (8 * 4 : Nat) = 32 from rfl,
    show ((2 ^ 32 : Nat) : Int) = 4294967296 from by norm_num] at hu
  simp only [int_from_bytes, int_to_bytes_le_length,
    show (8 * 4 - 1 : Nat) = 31 from rfl, show (8 * 4 : Nat) = 32 from rfl,
    eq_self_iff_true, true_and]
  split <;> omega

lemma int_from_bytes_int_to_bytes_le_unsigned2 (v : Int)
    (h1 : 0 ≤ v) (h2 : v < 65536) :
    int_from_bytes (int_to_bytes_le 2 v) false = v := by
  have hu := fromBytesLE_int_to_bytes_le 2 v
  simp only [show (8 * 2 : Nat) = 16 from rfl,
    show ((2 ^ 16 : Nat) : Int) = 65536 from by norm_num] at hu
  simp only [int_from_bytes, int_to_bytes_le_length]
  simp only [Bool.false_eq_true, false_and, if_false]
  omega

lemma int_from_bytes_false (bs : List Nat) :
    int_from_bytes bs false = (fromBytesLE bs : Int) := by
  simp [int_from_bytes]

lemma mem_of_mem_ingest {r : Reading} {buf batch : List Reading}
    (h : r ∈ ingest buf batch) : r ∈ buf ++ batch := by
  simp only [ingest] at h
  split at h
  · exact List.mem_of_mem_drop h
  · exact h

lemma ingest_ne_nil {buf : List Reading} (batch : List Reading)
    (h : buf ≠ []) : ingest buf batch ≠ [] := by
  have hpos : 0 < buf.length := List.length_pos.mpr h
  simp only [ingest]
  split
  · apply List.ne_nil_of_length_pos
    rw [List.length_drop, List.length_append]
    omega
  · simp [h]

lemma foldl_to_csv_append (f : List CsvLine) (bs : List (List Reading)) :
    bs.foldl to_csv_append f = f ++ bs.flatten.map CsvLine.record := by
  induction bs generalizing f with
  | nil => simp
  | cons b rest ih =>
      simp [to_csv_append, ih, List.map_append, List.append_assoc]

/-- C1: for every sensor spec in the five-entry table, a serial response of
exactly `width` bytes carrying the little-endian (signed per the spec's
flag) encoding of an in-range integer `v` decodes to a Reading with value
`v * scale` exactly, with the spec's name and unit; in particular a 2-byte
response `[0x0A, 0x00]` to command `0x10` yields
`Reading (value := 1, id := "TC1", unit := "T")`. -/
theorem C1_decode_roundtrip_exact (spec : SensorSpec)
    (hspec : spec ∈ communication_specs) (v : Int)
    (hlo : if spec.signed = true then -(2 ^ (8 * spec.width - 1) : Int) ≤ v
           else 0 ≤ v)
    (hhi : v < if spec.signed = true then (2 ^ (8 * spec.width - 1) : Int)
           else 2 ^ (8 * spec.width))
    (respond : Nat → List Nat) (t : Nat) (ts : Nat → Nat)
    (hresp : respond spec.command = int_to_bytes_le spec.width v) :
    read_sensor respond t spec = ⟨t, spec.name, spec.unit, (v : ℚ) * spec.scale⟩ ∧
    (get_new_sensor_values (fun c => if c = 0x10 then [0x0A, 0x00] else []) ts).head?
      = some ⟨ts 0, "TC1", "T", 1⟩ := by
  constructor
  · have htake : (respond spec.command).take spec.width = int_to_bytes_le spec.width v := by
      rw [hresp]
      exact List.take_of_length_le (le_of_eq (int_to_bytes_le_length spec.width v))
    simp only [communication_specs, List.mem_cons, List.not_mem_nil, or_false] at hspec
    rcases hspec with h | h | h | h | h <;> subst h <;>
      simp only [read_sensor, htake, List.take_take, Nat.min_self] <;>
      norm_num at hlo hhi ⊢
    · rw [List.take_of_length_le (le_of_eq (int_to_bytes_le_length 2 v)),
        int_from_bytes_int_to_bytes_le_signed2 v (by omega) (by omega)]
    · rw [List.take_of_length_le (le_of_eq (int_to_bytes_le_length 2 v)),
        int_from_bytes_int_to_bytes_le_signed2 v (by omega) (by omega)]
    · rw [List.take_of_length_le (le_of_eq (int_to_bytes_le_length 4 v)),
        int_from_bytes_int_to_bytes_le_signed4 v (by omega) (by omega)]
    · rw [List.take_of_length_le (le_of_eq (int_to_bytes_le_length 2 v)),
        int_from_bytes_int_to_bytes_le_unsigned2 v (by omega) (by omega)]
    · rw [List.take_of_length_le (le_of_eq (int_to_bytes_le_length 2 v)),
        int_from_bytes_int_to_bytes_le_unsigned2 v (by omega) (by omega)]
  · simp [get_new_sensor_values, communication_specs, collect_loop, read_sensor,
      int_from_bytes, fromBytesLE]

/-- Witness for C1 at the TC1 spec, `v = 10`, response `[0x0A, 0x00]`. -/
theorem C1_witness :
    read_sensor (fun c => if c = 0x10 then [0x0A, 0x00] else []) 7
        ⟨"TC1", 0x10, 2, 1/10, "T", true⟩
      = ⟨7, "TC1", "T", ((10 : Int) : ℚ) * (1/10)⟩ ∧
    (get_new_sensor_values (fun c => if c = 0x10 then [0x0A, 0x00] else [])
        (fun _ => 7)).head? = some ⟨7, "TC1", "T", 1⟩ :=
  C1_decode_roundtrip_exact ⟨"TC1", 0x10, 2, 1/10, "T", true⟩
    (by simp [communication_specs]) 10 (by norm_num) (by norm_num)
    (fun c => if c = 0x10 then [0x0A, 0x00] else []) 7 (fun _ => 7)
    (by decide)

/-- C2: ingesting a batch into a buffer currently within the cap appends it
in order; if the post-append size exceeds `max_length`, exactly the
`len(batch)` oldest rows are dropped (and nothing else), and afterwards the
buffer again holds at most `max_length` rows. -/
theorem C2_ingest_bound (buf batch : List Reading) (h : buf.length ≤ max_length) :
    (ingest buf batch).length ≤ max_length ∧
    (max_length < (buf ++ batch).length →
      ingest buf batch = (buf ++ batch).drop batch.length) ∧
    ((buf ++ batch).length ≤ max_length → ingest buf batch = buf ++ batch) := by
  refine ⟨?_, ?_, ?_⟩ <;> simp only [ingest] <;> split <;>
    simp_all [List.length_drop, List.length_append]

/-- Witness for C2 on a buffer warmed to exactly `max_length` rows. -/
theorem C2_witness :
    (ingest (List.replicate 500 (⟨0, "TC1", "T", 0⟩ : Reading))
        [(⟨1, "TC2", "T", 0⟩ : Reading)]).length ≤ max_length ∧
    (max_length < (List.replicate 500 (⟨0, "TC1", "T", 0⟩ : Reading)
        ++ [(⟨1, "TC2", "T", 0⟩ : Reading)]).length →
      ingest (List.replicate 500 (⟨0, "TC1", "T", 0⟩ : Reading))
          [(⟨1, "TC2", "T", 0⟩ : Reading)]
        = (List.replicate 500 (⟨0, "TC1", "T", 0⟩ : Reading)
            ++ [(⟨1, "TC2", "T", 0⟩ : Reading)]).drop
            (List.length [(⟨1, "TC2", "T", 0⟩ : Reading)])) ∧
    ((List.replicate 500 (⟨0, "TC1", "T", 0⟩ : Reading)
        ++ [(⟨1, "TC2", "T", 0⟩ : Reading)]).length ≤ max_length →
      ingest (List.replicate 500 (⟨0, "TC1", "T", 0⟩ : Reading))
          [(⟨1, "TC2", "T", 0⟩ : Reading)]
        = List.replicate 500 (⟨0, "TC1", "T", 0⟩ : Reading)
            ++ [(⟨1, "TC2", "T", 0⟩ : Reading)]) :=
  C2_ingest_bound (List.replicate 500 ⟨0, "TC1", "T", 0⟩) [⟨1, "TC2", "T", 0⟩]
    (by rw [List.length_replicate]; exact Nat.le_refl 500)

/-- C3: `check_connection` fails its assertion exactly when the response
read for the device-ID probe `0x01` differs from `b'\x0d\xee'`, and on a
mismatch no sensor-read command is ever written during startup. -/
theorem C3_handshake_assert (respond : Nat → List Nat) :
    ((check_connection respond).1 = false ↔ (respond 0x01).take 100 ≠ [0x0D, 0xEE]) ∧
    ((check_connection respond).1 = false →
      ∀ c ∈ sensor_commands, Event.write c ∉ startup_events respond) := by
  by_cases hr : (respond 0x01).take 100 = [0x0d, 0xee]
  · constructor
    · simp [check_connection, hr]
    · intro hfalse
      simp [check_connection, hr] at hfalse
  · constructor
    · simp [check_connection, hr]
    · intro _ c hc
      simp only [sensor_commands, communication_specs, List.map_cons, List.map_nil,
        List.mem_cons, List.not_mem_nil, or_false] at hc
      simp only [startup_events, check_connection, hr, if_neg]
      simp only [if_false, List.append_nil, List.mem_cons, List.not_mem_nil]
      rcases hc with h | h | h | h | h <;> subst h <;> simp

/-- Witness for C3 on a transport whose device-ID response is empty. -/
theorem C3_witness :
    (check_connection (fun _ => [])).1 = false ∧
    Event.write 0x10 ∉ startup_events (fun _ => []) := by
  refine ⟨(C3_handshake_assert (fun _ => [])).1.mpr (by decide), ?_⟩
  exact (C3_handshake_assert (fun _ => [])).2
    ((C3_handshake_assert (fun _ => [])).1.mpr (by decide)) 0x10
    (by simp [sensor_commands, communication_specs])

/-- C4: for every sensor spec, a short (even empty) response raises no
error: the value decoded is the little-endian interpretation of exactly the
bytes received, times the spec's scale, and an empty response decodes to
value `0`. -/
theorem C4_short_read (spec : SensorSpec) (_hspec : spec ∈ communication_specs)
    (respond : Nat → List Nat) (t : Nat)
    (hshort : (respond spec.command).length ≤ spec.width) :
    read_sensor respond t spec
      = ⟨t, spec.name, spec.unit,
         (int_from_bytes (respond spec.command) spec.signed : ℚ) * spec.scale⟩ ∧
    (respond spec.command = [] → (read_sensor respond t spec).value = 0) := by
  have htake : (respond spec.command).take spec.width = respond spec.command :=
    List.take_of_length_le hshort
  constructor
  · simp [read_sensor, htake, List.take_take]
  · intro he
    simp [read_sensor, he, int_from_bytes, fromBytesLE]

/-- Witness for C4: the TC1 spec with a transport timing out to an empty
response. -/
theorem C4_witness :
    read_sensor (fun _ => []) 3 ⟨"TC1", 0x10, 2, 1/10, "T", true⟩
      = ⟨3, "TC1", "T", (int_from_bytes [] true : ℚ) * (1/10)⟩ ∧
    (([] : List Nat) = [] →
      (read_sensor (fun _ => []) 3 ⟨"TC1", 0x10, 2, 1/10, "T", true⟩).value = 0) :=
  C4_short_read ⟨"TC1", 0x10, 2, 1/10, "T", true⟩ (by simp [communication_specs])
    (fun _ => []) 3 (by simp)

/-- C5 (counterexample): on a compliant device, neither the handshake
trace nor the collection-cycle trace opens a fresh connection before each
write — both open one connection and reuse it across writes. -/
theorem C5_counterexample :
    fresh_per_write
      (check_connection (fun c => if c = 0x01 then [0x0d, 0xee] else [])).2 = false ∧
    fresh_per_write (get_new_sensor_values_trace (fun _ => [])) = false := by
  decide

/-- C5 (amended): each identification handshake opens exactly one
connection, shared by its four probe writes, and each collection cycle
opens exactly one fresh connection, shared by its five sensor-command
writes; both traces begin by opening the port. -/
theorem C5_one_connection_per_cycle (respond : Nat → List Nat) :
    count_opens (check_connection respond).2 = 1 ∧
    (check_connection respond).2.head? = some Event.openConn ∧
    ((check_connection respond).1 = true →
      writes_of (check_connection respond).2 = [0x00, 0x01, 0x02, 0x03]) ∧
    count_opens (get_new_sensor_values_trace respond) = 1 ∧
    (get_new_sensor_values_trace respond).head? = some Event.openConn ∧
    writes_of (get_new_sensor_values_trace respond) = [0x10, 0x11, 0x12, 0x14, 0x15] := by
  by_cases hr : (respond 0x01).take 100 = [0x0d, 0xee] <;>
    simp [check_connection, hr, count_opens, writes_of, get_new_sensor_values_trace,
      communication_specs]

/-- Witness for C5 (amended) on a compliant device. -/
theorem C5_witness :
    writes_of
        (check_connection (fun c => if c = 0x01 then [0x0d, 0xee] else [])).2
      = [0x00, 0x01, 0x02, 0x03] :=
  (C5_one_connection_per_cycle (fun c => if c = 0x01 then [0x0d, 0xee] else [])).2.2.1
    (by decide)

/-- C6 (counterexample): the startup `to_csv` write of a later run
truncates the file — a record written by a previous run is no longer in
the file after the next run's startup write. -/
theorem C6_counterexample :
    CsvLine.record ⟨1, "TC1", "T", 0⟩ ∈ run_csv [] [⟨1, "TC1", "T", 0⟩] [] ∧
    CsvLine.record ⟨1, "TC1", "T", 0⟩ ∉
      run_csv (run_csv [] [⟨1, "TC1", "T", 0⟩] []) [⟨2, "TC1", "T", 0⟩] [] := by
  constructor <;> simp [run_csv, to_csv_write, to_csv_append]

/-- C6 (amended): within one run the log is append-only after the startup
write: each run's startup write replaces the file with one header row
followed by the initial batch (regardless of the file's earlier contents,
so the file does not grow across runs), and every subsequent batch appends
records in order with no further header, leaving the run's earlier lines
unchanged. -/
theorem C6_run_log_shape (file0 : List CsvLine) (batch0 : List Reading)
    (batches : List (List Reading)) :
    run_csv file0 batch0 batches
      = CsvLine.header :: (batch0 ++ batches.flatten).map CsvLine.record := by
  simp [run_csv, foldl_to_csv_append, to_csv_write, List.map_append]

/-- C7: with persistence enabled, after startup and any number of
animation ticks, every Reading in the in-memory buffer also appears as a
record in the CSV file. -/
theorem C7_buffer_in_log (file0 : List CsvLine) (responds : Nat → Nat → List Nat)
    (tss : Nat → Nat → Nat) (n : Nat) :
    ∀ r ∈ (run_state file0 responds tss n).buffer,
      CsvLine.record r ∈ (run_state file0 responds tss n).file := by
  induction n with
  | zero =>
      intro r hr
      simp only [run_state, init_run, to_csv_write] at hr ⊢
      exact List.mem_cons_of_mem _ (List.mem_map_of_mem _ hr)
  | succ k ih =>
      intro r hr
      simp only [run_state, animation_update, to_csv_append] at hr ⊢
      rcases List.mem_append.mp (mem_of_mem_ingest hr) with h | h
      · exact List.mem_append_left _ (ih r h)
      · exact List.mem_append_right _ (List.mem_map_of_mem _ h)

/-- Witness for C7: a TC1 reading present in the buffer after startup is in
the file. -/
theorem C7_witness :
    CsvLine.record ⟨0, "TC1", "T", 0⟩
      ∈ (run_state [] (fun _ _ => []) (fun _ _ => 0) 0).file :=
  C7_buffer_in_log [] (fun _ _ => []) (fun _ _ => 0) 0 ⟨0, "TC1", "T", 0⟩
    (by simp [run_state, init_run, get_new_sensor_values, communication_specs,
      collect_loop, read_sensor, int_from_bytes, fromBytesLE])

/-- C8: every collection cycle returns exactly five Readings, one per table
entry, in declaration order TC1, TC2, VDD, TH1, TH2, and the table carries
exactly the commands `0x10 0x11 0x12 0x14 0x15`, widths `2 2 4 2 2`, scales
`0.1 0.1 1 1 1`, units `T T uV "ADC value" "ADC value"` and signedness
`signed signed signed unsigned unsigned`. -/
theorem C8_register_table (respond : Nat → List Nat) (ts : Nat → Nat) :
    communication_specs.map
        (fun s => (s.name, s.command, s.width, s.scale, s.unit, s.signed))
      = [("TC1", 0x10, 2, (1/10 : ℚ), "T", true),
         ("TC2", 0x11, 2, (1/10 : ℚ), "T", true),
         ("VDD", 0x12, 4, (1 : ℚ), "uV", true),
         ("TH1", 0x14, 2, (1 : ℚ), "ADC value", false),
         ("TH2", 0x15, 2, (1 : ℚ), "ADC value", false)] ∧
    (get_new_sensor_values respond ts).map (fun r => (r.id, r.unit))
      = [("TC1", "T"), ("TC2", "T"), ("VDD", "uV"),
         ("TH1", "ADC value"), ("TH2", "ADC value")] ∧
    (get_new_sensor_values respond ts).length = 5 := by
  refine ⟨rfl, ?_, ?_⟩ <;>
    simp [get_new_sensor_values, communication_specs, collect_loop, read_sensor]

/-- C9: `__main__` takes one five-row initial batch before the animation
starts, and from then on the buffer is never empty at any tick, so every
ingest (whose per-row append addresses index `max + 1`) runs on a
non-empty buffer. -/
theorem C9_buffer_never_empty (file0 : List CsvLine)
    (responds : Nat → Nat → List Nat) (tss : Nat → Nat → Nat) :
    (get_new_sensor_values (responds 0) (tss 0)).length = 5 ∧
    ∀ n, (run_state file0 responds tss n).buffer ≠ [] := by
  constructor
  · simp [get_new_sensor_values, communication_specs, collect_loop]
  · intro n
    induction n with
    | zero =>
        simp only [run_state, init_run]
        apply List.ne_nil_of_length_pos
        simp [get_new_sensor_values, communication_specs, collect_loop]
    | succ k ih =>
        simp only [run_state, animation_update]
        exact ingest_ne_nil _ ih

/-- Witness for C9 after one tick. -/
theorem C9_witness :
    (run_state [] (fun _ _ => []) (fun _ _ => 0) 1).buffer ≠ [] :=
  (C9_buffer_never_empty [] (fun _ _ => []) (fun _ _ => 0)).2 1

/-- C10: for every possible response, the TH1 and TH2 readings are
nonnegative (unsigned decode, scale 1), while there is a response making
the TC1, TC2 and VDD readings negative (signed two's-complement decode). -/
theorem C10_signedness (respond : Nat → List Nat) (ts : Nat → Nat) :
    (∀ r ∈ get_new_sensor_values respond ts,
      (r.id = "TH1" ∨ r.id = "TH2") → 0 ≤ r.value) ∧
    (∃ respond2 : Nat → List Nat, ∀ r ∈ get_new_sensor_values respond2 ts,
      (r.id = "TC1" ∨ r.id = "TC2" ∨ r.id = "VDD") → r.value < 0) := by
  constructor
  · intro r hr hid
    simp only [get_new_sensor_values, communication_specs, collect_loop, read_sensor,
      List.mem_cons, List.not_mem_nil, or_false] at hr
    rcases hr with h | h | h | h | h <;> subst h <;> simp_all [int_from_bytes_false]
  · refine ⟨fun _ => [0xFF, 0xFF, 0xFF, 0xFF], ?_⟩
    intro r hr hid
    simp only [get_new_sensor_values, communication_specs, collect_loop, read_sensor,
      List.mem_cons, List.not_mem_nil, or_false] at hr
    rcases hr with h | h | h | h | h <;> subst h <;>
      simp_all [int_from_bytes, fromBytesLE]

/-- Witness for C10: the TH1 reading of an all-timeouts cycle is
nonnegative. -/
theorem C10_witness :
    0 ≤ (⟨0, "TH1", "ADC value", 0⟩ : Reading).value :=
  (C10_signedness (fun _ => []) (fun _ => 0)).1 ⟨0, "TH1", "ADC value", 0⟩
    (by simp [get_new_sensor_values, communication_specs, collect_loop, read_sensor,
      int_from_bytes, fromBytesLE])
    (by simp)

end KTH
